import Mathlib

set_option linter.unusedVariables false
set_option maxRecDepth 40000

/- `Rat.mul` and friends are `@[irreducible]` in Batteries, which blocks
`decide` on concrete rational computations at elaboration time (the kernel
is unaffected either way); re-mark them semireducible. -/
set_option allowUnsafeReducibility true
attribute [semireducible] Rat.mul Rat.inv Rat.add Rat.sub

/-!
Verification development for the `restoration` replay parser (Go sources).

The definitions below are a shallow embedding of the byte-level decoder:
`decoder.go` (little-endian primitive reads), `gameCommands.go` /
`part_003` (the per-command-type refiners and the command factory),
`gameCommandParser.go` (the command-stream framing), `header.go`
(the header tree walker) and `formatter.go` (the semantic assembler).

Modelling conventions:
* a byte blob is a `List Nat` accessed with `getD _ 0` (Go slice reads
  that are in bounds agree with this; the theorems below are evaluated
  at in-bounds inputs);
* Go `int` values that the code keeps non-negative (offsets, counts,
  player ids, command types) are `Nat`; signed 32-bit reads are `Int`
  with an explicit two's-complement conversion;
* Go `float64` arithmetic on game times and EAPM is modelled in `ℚ`
  (the statements proved relate one decoded quantity to another, not
  to IEEE rounding); `float32` payload values are carried as their
  raw 32-bit pattern, with sign test / negation / rational value
  defined bit-exactly as in IEEE-754 binary32;
* fallible Go functions returning `(T, error)` are `Except String T`.
-/

namespace Restoration

/-! ### Byte reader (`decoder.go`) -/

/-- A byte blob: the Go `[]byte` slice, little-endian multi-byte reads. -/
abbrev Bytes := List Nat

/-- Read one byte (Go `(*data)[i]`). -/
def byteAt (data : Bytes) (i : Nat) : Nat := data.getD i 0

/-- Go `readUint16`: little-endian 16-bit read. -/
def readUint16 (data : Bytes) (offset : Nat) : Nat :=
  byteAt data offset + 256 * byteAt data (offset + 1)

/-- Go `readUint32`: little-endian 32-bit read. -/
def readUint32 (data : Bytes) (offset : Nat) : Nat :=
  byteAt data offset + 256 * byteAt data (offset + 1) +
    65536 * byteAt data (offset + 2) + 16777216 * byteAt data (offset + 3)

/-- Go `readInt32`: the 32-bit pattern reinterpreted as two's complement. -/
def readInt32 (data : Bytes) (offset : Nat) : Int :=
  let u := readUint32 data offset
  if u < 2 ^ 31 then (u : Int) else (u : Int) - 2 ^ 32

/-- Go `Vector3`: three signed 32-bit components. -/
structure Vector3 where
  X : Int
  Y : Int
  Z : Int
deriving DecidableEq

/-- Go `readVector`: three consecutive `readInt32`s. -/
def readVector (data : Bytes) (offset : Nat) : Vector3 :=
  { X := readInt32 data offset
    Y := readInt32 data (offset + 4)
    Z := readInt32 data (offset + 8) }

/-! ### IEEE-754 binary32 helpers (`readFloat` and the sign logic of
the market refiner). The payload float is carried as its bit pattern;
the two operations the source performs on it (`quantity < 0` and
`-quantity`) are bit-exact. -/

/-- Go `readFloat` reads the 32-bit pattern; we keep the pattern. -/
def readFloatBits (data : Bytes) (offset : Nat) : Nat := readUint32 data offset

/-- Whether the binary32 value with this pattern is strictly negative
(the Go comparison `quantity < 0`): sign bit set, not a negative zero,
not a NaN. -/
def float32IsNeg (bits : Nat) : Bool :=
  let s := bits / 2 ^ 31 % 2
  let e := bits / 2 ^ 23 % 2 ^ 8
  let m := bits % 2 ^ 23
  s == 1 && !(e == 0 && m == 0) && !(e == 255 && m != 0)

/-- Binary32 negation (the Go expression `-quantity`): flip the sign bit. -/
def float32Neg (bits : Nat) : Nat :=
  if bits < 2 ^ 31 then bits + 2 ^ 31 else bits - 2 ^ 31

/-- The rational value of a finite binary32 pattern (infinities and NaNs
are mapped to 0; the claims evaluate this only at finite patterns). -/
def float32Val (bits : Nat) : ℚ :=
  let s : Nat := bits / 2 ^ 31 % 2
  let e : Nat := bits / 2 ^ 23 % 2 ^ 8
  let m : Nat := bits % 2 ^ 23
  let mag : ℚ :=
    if e = 0 then (m : ℚ) / 2 ^ 149
    else if e = 255 then 0
    else ((2 ^ 23 + m : Nat) : ℚ) * (2 : ℚ) ^ ((e : ℤ) - 150)
  if s = 1 then -mag else mag

/-! ### Command data model (`part_003` / `gameCommands.go`) -/

/-- Go `BaseCommand` (`part_003`).  The parent-file iteration carries the
source units, source vectors and pre-argument bytes by pointer; here they
are plain lists.  `gameTimeSecs` (Go `float64`) is modelled in `ℚ`. -/
structure BaseCommand where
  commandType : Nat
  playerId : Nat
  offset : Nat
  offsetEnd : Nat
  byteLength : Nat
  gameTimeSecs : ℚ
  affectsEAPM : Bool
  sourceUnits : List Nat
  sourceVectors : List Vector3
  preArgumentBytes : List Nat
deriving DecidableEq, Inhabited

/-- The type-specific fields extracted by the refiners.  Go models each
command as its own struct embedding `BaseCommand`; the closed set of
variants is collected here.  Refiners that extract no fields (task,
delete, stop, …) map to `plain`; resign and townBell keep their own
variants because the formatter dispatches on them. -/
inductive CommandPayload where
  | plain : CommandPayload
  | research (techId : Int) : CommandPayload
  | train (protoUnitId : Int) (numUnits : Int) : CommandPayload
  | build (protoBuildingId : Int) (location : Vector3) (queued : Bool) : CommandPayload
  | protoPower (protoPowerId : Int) (location1 : Vector3) (location2 : Vector3) : CommandPayload
  | buySell (resourceType : String) (action : String) (quantityBits : Nat) : CommandPayload
  | resign : CommandPayload
  | townBell : CommandPayload
  | taunt (tauntId : Int) : CommandPayload
  | cheat (cheatId : Int) : CommandPayload
  | setFormation (formation : String) : CommandPayload
  | timeShift (location : Vector3) : CommandPayload
  | autoqueue (protoUnitId : Int) : CommandPayload
  | prequeueTech (techId : Int) : CommandPayload
deriving DecidableEq, Inhabited

/-- A refined command: the enriched base plus the extracted fields.
This is the tagged-variant rendering of Go's `RawGameCommand` interface. -/
structure RawGameCommand where
  base : BaseCommand
  payload : CommandPayload
deriving DecidableEq, Inhabited

/-- Go `newBaseCommand` (`gameCommandParser.go`): game time is the
command-list index divided by 20 (the 20 Hz tick), `affectsEAPM`
defaults to true, `offsetEnd`/`byteLength` start at the Go zero value. -/
def newBaseCommand (offset commandType playerId lastCommandListIdx : Nat)
    (sourceUnits : List Nat) (sourceVectors : List Vector3)
    (preArgumentBytes : List Nat) : BaseCommand :=
  { commandType := commandType
    playerId := playerId
    offset := offset
    offsetEnd := 0
    byteLength := 0
    gameTimeSecs := (lastCommandListIdx : ℚ) / 20
    affectsEAPM := true
    sourceUnits := sourceUnits
    sourceVectors := sourceVectors
    preArgumentBytes := preArgumentBytes }

/-- Go `enrichBaseCommand` (`part_003`): record the refined byte length
and set `offsetEnd = offset + byteLength`. -/
def enrichBaseCommand (b : BaseCommand) (byteLength : Nat) : BaseCommand :=
  { b with byteLength := byteLength, offsetEnd := b.offset + byteLength }

/-! Widths of the primitive unpack helpers (`part_003`). -/

def unpackInt32 : Nat := 4

def unpackInt8 : Nat := 1

def unpackVector : Nat := 12

def unpackFloat : Nat := 4

/-! ### The per-type refiners (`part_003`).  Each Go refiner is a method
`Refine(baseCommand *BaseCommand, data *[]byte) RawGameCommand`; here each
is a function of the same two arguments.  Byte lengths are computed by the
same primitive-width sums (or literals) as the source. -/

/-- Type 0, task. -/
def TaskCommandRefine (baseCommand : BaseCommand) (data : Bytes) : RawGameCommand :=
  let byteLength := unpackInt32 + unpackInt32 + unpackInt32 + unpackInt32 +
    unpackVector + unpackFloat + unpackInt32 + unpackInt32 + unpackInt32
  ⟨enrichBaseCommand baseCommand byteLength, .plain⟩

/-- Type 1, research: 12 bytes, tech id is the i32 at payload offset +8. -/
def ResearchCommandRefine (baseCommand : BaseCommand) (data : Bytes) : RawGameCommand :=
  let byteLength := 12
  ⟨enrichBaseCommand baseCommand byteLength,
    .research (readInt32 data (baseCommand.offset + 8))⟩

/-- Type 2, train: 18 bytes, proto unit id at +8, unit count byte at +18. -/
def TrainCommandRefine (baseCommand : BaseCommand) (data : Bytes) : RawGameCommand :=
  let byteLength := 18
  let protoUnitId := readInt32 data (baseCommand.offset + 8)
  let numUnits : Int :=
    let b := byteAt data (baseCommand.offset + 18)
    if b < 2 ^ 7 then (b : Int) else (b : Int) - 2 ^ 8
  ⟨enrichBaseCommand baseCommand byteLength, .train protoUnitId numUnits⟩

/-- Type 3, build: 52 bytes, building id at +8, location vector at +12,
queued from bit 1 of the first pre-argument byte. -/
def BuildCommandRefine (baseCommand : BaseCommand) (data : Bytes) : RawGameCommand :=
  let byteLength := 52
  let protoBuildingId := readInt32 data (baseCommand.offset + 8)
  let location := readVector data (baseCommand.offset + 12)
  let queued := (baseCommand.preArgumentBytes.getD 0 0) &&& 2 ≠ 0
  ⟨enrichBaseCommand baseCommand byteLength, .build protoBuildingId location queued⟩

/-- Type 4, setGatherPoint: width sum, eapm suppressed. -/
def SetGatherPointCommandRefine (baseCommand : BaseCommand) (data : Bytes) : RawGameCommand :=
  let byteLength := unpackInt32 + unpackInt32 + unpackVector + unpackFloat +
    unpackInt32 + unpackInt32
  let b := enrichBaseCommand baseCommand byteLength
  ⟨{ b with affectsEAPM := false }, .plain⟩

/-- Type 7, delete. -/
def DeleteCommandRefine (baseCommand : BaseCommand) (data : Bytes) : RawGameCommand :=
  let byteLength := unpackInt32 + unpackInt32 + unpackInt8
  ⟨enrichBaseCommand baseCommand byteLength, .plain⟩

/-- Type 9, stop. -/
def StopCommandRefine (baseCommand : BaseCommand) (data : Bytes) : RawGameCommand :=
  let byteLength := unpackInt32 + unpackInt32
  ⟨enrichBaseCommand baseCommand byteLength, .plain⟩

/-- Type 12, useProtoPower: 57 bytes, power id at +52, locations at +12/+24. -/
def ProtoPowerCommandRefine (baseCommand : BaseCommand) (data : Bytes) : RawGameCommand :=
  let byteLength := 57
  let protoPowerId := readInt32 data (baseCommand.offset + 52)
  let location1 := readVector data (baseCommand.offset + 12)
  let location2 := readVector data (baseCommand.offset + 24)
  ⟨enrichBaseCommand baseCommand byteLength, .protoPower protoPowerId location1 location2⟩

/-- Type 13, marketBuySellResources: 20 bytes, resource id (i32 at +8)
maps 1 to wood, 2 to food, otherwise unknown; the f32 at +16 is the
quantity, negative quantities become a sell of the negated amount. -/
def BuySellResourcesCommandRefine (baseCommand : BaseCommand) (data : Bytes) : RawGameCommand :=
  let byteLength := 20
  let resourceId := readInt32 data (baseCommand.offset + 8)
  let resourceType : String :=
    if resourceId = 1 then "wood"
    else if resourceId = 2 then "food"
    else "unknown"
  let quantity := readFloatBits data (baseCommand.offset + 16)
  let action : String := if float32IsNeg quantity then "sell" else "buy"
  let quantity := if float32IsNeg quantity then float32Neg quantity else quantity
  ⟨enrichBaseCommand baseCommand byteLength, .buySell resourceType action quantity⟩

/-- Type 14, ungarrison. -/
def UngarrisonCommandRefine (baseCommand : BaseCommand) (data : Bytes) : RawGameCommand :=
  let byteLength := unpackInt32 + unpackInt32
  ⟨enrichBaseCommand baseCommand byteLength, .plain⟩

/-- Type 16, resign: width sum, eapm suppressed. -/
def ResignCommandRefine (baseCommand : BaseCommand) (data : Bytes) : RawGameCommand :=
  let byteLength := unpackInt32 + unpackInt32 + unpackInt32 + unpackInt32 +
    unpackInt32 + unpackInt8
  let b := enrichBaseCommand baseCommand byteLength
  ⟨{ b with affectsEAPM := false }, .resign⟩

/-- Type 18, unknown. -/
def UnknownCommand18Refine (baseCommand : BaseCommand) (data : Bytes) : RawGameCommand :=
  let byteLength := unpackInt32 + unpackInt32 + unpackInt32
  ⟨enrichBaseCommand baseCommand byteLength, .plain⟩

/-- Type 19, tribute. -/
def TributeCommandRefine (baseCommand : BaseCommand) (data : Bytes) : RawGameCommand :=
  let byteLength := unpackInt32 + unpackInt32 + unpackInt32 + unpackInt32 +
    unpackFloat + unpackFloat + unpackInt8
  ⟨enrichBaseCommand baseCommand byteLength, .plain⟩

/-- Type 23, finishUnitTransform. -/
def FinishUnitTransformCommandRefine (baseCommand : BaseCommand) (data : Bytes) : RawGameCommand :=
  let byteLength := unpackInt32 + unpackInt32 + unpackInt32 + unpackInt8 + unpackInt8
  ⟨enrichBaseCommand baseCommand byteLength, .plain⟩

/-- Type 25, setUnitStance. -/
def SetUnitStanceCommandRefine (baseCommand : BaseCommand) (data : Bytes) : RawGameCommand :=
  let byteLength := unpackInt32 + unpackInt32 + unpackInt8 + unpackInt8 + unpackInt32
  ⟨enrichBaseCommand baseCommand byteLength, .plain⟩

/-- Type 26, changeDiplomacy. -/
def ChangeDiplomacyCommandRefine (baseCommand : BaseCommand) (data : Bytes) : RawGameCommand :=
  let byteLength := unpackInt32 + unpackInt32 + unpackInt8 + unpackInt32
  ⟨enrichBaseCommand baseCommand byteLength, .plain⟩

/-- Type 34, townBell: 8 bytes. -/
def TownBellCommandRefine (baseCommand : BaseCommand) (data : Bytes) : RawGameCommand :=
  let byteLength := 8
  ⟨enrichBaseCommand baseCommand byteLength, .townBell⟩

/-- Type 35, autoScoutEvent: 12 bytes, eapm suppressed. -/
def AutoScoutEventCommandRefine (baseCommand : BaseCommand) (data : Bytes) : RawGameCommand :=
  let byteLength := 12
  let b := enrichBaseCommand baseCommand byteLength
  ⟨{ b with affectsEAPM := false }, .plain⟩

/-- Type 37, changeControlGroupContents: width sum, eapm suppressed. -/
def ChangeControlGroupContentsCommandRefine (baseCommand : BaseCommand) (data : Bytes) : RawGameCommand :=
  let byteLength := unpackInt32 + unpackInt32 + unpackInt8 + unpackInt32
  let b := enrichBaseCommand baseCommand byteLength
  ⟨{ b with affectsEAPM := false }, .plain⟩

/-- Type 38, repair. -/
def RepairCommandRefine (baseCommand : BaseCommand) (data : Bytes) : RawGameCommand :=
  let byteLength := unpackInt32 + unpackInt32 + unpackInt32
  ⟨enrichBaseCommand baseCommand byteLength, .plain⟩

/-- Type 41, taunt: 41 bytes, taunt id at +8. -/
def TauntCommandRefine (baseCommand : BaseCommand) (data : Bytes) : RawGameCommand :=
  let byteLength := 41
  let tauntId := readInt32 data (baseCommand.offset + 8)
  ⟨enrichBaseCommand baseCommand byteLength, .taunt tauntId⟩

/-- Type 44, cheat: 16 bytes, cheat id at +8. -/
def CheatCommandRefine (baseCommand : BaseCommand) (data : Bytes) : RawGameCommand :=
  let byteLength := 16
  let cheatId := readInt32 data (baseCommand.offset + 8)
  ⟨enrichBaseCommand baseCommand byteLength, .cheat cheatId⟩

/-- Type 45, cancelQueuedItem. -/
def CancelQueuedItemCommandRefine (baseCommand : BaseCommand) (data : Bytes) : RawGameCommand :=
  let byteLength := unpackInt32 + unpackInt32 + unpackInt32 + unpackInt32 + unpackInt32
  ⟨enrichBaseCommand baseCommand byteLength, .plain⟩

/-- Type 48, setFormation: 16 bytes, the i32 at +8 selects the formation. -/
def SetFormationCommandRefine (baseCommand : BaseCommand) (data : Bytes) : RawGameCommand :=
  let byteLength := 16
  let formationId := readInt32 data (baseCommand.offset + 8)
  let formation : String :=
    if formationId = 0 then "line"
    else if formationId = 1 then "box"
    else if formationId = 2 then "spread"
    else "unknown"
  ⟨enrichBaseCommand baseCommand byteLength, .setFormation formation⟩

/-- Type 53, startUnitTransform: width sum, eapm suppressed. -/
def StartUnitTransformCommandRefine (baseCommand : BaseCommand) (data : Bytes) : RawGameCommand :=
  let byteLength := unpackInt32 + unpackInt32 + unpackInt32
  let b := enrichBaseCommand baseCommand byteLength
  ⟨{ b with affectsEAPM := false }, .plain⟩

/-- Type 55, unknown. -/
def UnknownCommand55Refine (baseCommand : BaseCommand) (data : Bytes) : RawGameCommand :=
  let byteLength := unpackInt32 + unpackInt32 + unpackVector
  ⟨enrichBaseCommand baseCommand byteLength, .plain⟩

/-- Type 66, autoqueue: 12 bytes, proto unit id at +8. -/
def AutoqueueCommandRefine (baseCommand : BaseCommand) (data : Bytes) : RawGameCommand :=
  let byteLength := 12
  let protoUnitId := readInt32 data (baseCommand.offset + 8)
  ⟨enrichBaseCommand baseCommand byteLength, .autoqueue protoUnitId⟩

/-- Type 67, toggleAutoUnitAbility. -/
def ToggleAutoUnitAbilityCommandRefine (baseCommand : BaseCommand) (data : Bytes) : RawGameCommand :=
  let byteLength := unpackInt32 + unpackInt32 + unpackInt8
  ⟨enrichBaseCommand baseCommand byteLength, .plain⟩

/-- Type 68, timeshift: 32 bytes, location is the first source vector. -/
def TimeShiftCommandRefine (baseCommand : BaseCommand) (data : Bytes) : RawGameCommand :=
  let byteLength := 32
  let location := baseCommand.sourceVectors.getD 0 ⟨0, 0, 0⟩
  ⟨enrichBaseCommand baseCommand byteLength, .timeShift location⟩

/-- Type 69, buildWallConnector: width sum, eapm suppressed. -/
def BuildWallConnectorCommandRefine (baseCommand : BaseCommand) (data : Bytes) : RawGameCommand :=
  let byteLength := unpackInt32 + unpackInt32 + unpackInt32 + unpackVector + unpackVector
  let b := enrichBaseCommand baseCommand byteLength
  ⟨{ b with affectsEAPM := false }, .plain⟩

/-- Type 71, seekShelter. -/
def SeekShelterCommandRefine (baseCommand : BaseCommand) (data : Bytes) : RawGameCommand :=
  let byteLength := unpackInt32 + unpackInt32
  ⟨enrichBaseCommand baseCommand byteLength, .plain⟩

/-- Type 72, prequeueTech: 13 bytes, tech id at +8. -/
def PrequeueTechCommandRefine (baseCommand : BaseCommand) (data : Bytes) : RawGameCommand :=
  let byteLength := 13
  let techId := readInt32 data (baseCommand.offset + 8)
  ⟨enrichBaseCommand baseCommand byteLength, .prequeueTech techId⟩

/-- Type 75, prebuyGodPower: 16 bytes. -/
def PrebuyGodPowerCommandRefine (baseCommand : BaseCommand) (data : Bytes) : RawGameCommand :=
  let byteLength := 16
  ⟨enrichBaseCommand baseCommand byteLength, .plain⟩

/-- Go `CommandFactoryInstance.Get`: the closed registry built by
`BuildCommandFactory` (`part_003`), as a static table. -/
def CommandFactoryGet (cmdType : Nat) : Option (BaseCommand → Bytes → RawGameCommand) :=
  match cmdType with
  | 0 => some TaskCommandRefine
  | 1 => some ResearchCommandRefine
  | 2 => some TrainCommandRefine
  | 3 => some BuildCommandRefine
  | 4 => some SetGatherPointCommandRefine
  | 7 => some DeleteCommandRefine
  | 9 => some StopCommandRefine
  | 12 => some ProtoPowerCommandRefine
  | 13 => some BuySellResourcesCommandRefine
  | 14 => some UngarrisonCommandRefine
  | 16 => some ResignCommandRefine
  | 18 => some UnknownCommand18Refine
  | 19 => some TributeCommandRefine
  | 23 => some FinishUnitTransformCommandRefine
  | 25 => some SetUnitStanceCommandRefine
  | 26 => some ChangeDiplomacyCommandRefine
  | 34 => some TownBellCommandRefine
  | 35 => some AutoScoutEventCommandRefine
  | 37 => some ChangeControlGroupContentsCommandRefine
  | 38 => some RepairCommandRefine
  | 41 => some TauntCommandRefine
  | 44 => some CheatCommandRefine
  | 45 => some CancelQueuedItemCommandRefine
  | 48 => some SetFormationCommandRefine
  | 53 => some StartUnitTransformCommandRefine
  | 55 => some UnknownCommand55Refine
  | 66 => some AutoqueueCommandRefine
  | 67 => some ToggleAutoUnitAbilityCommandRefine
  | 68 => some TimeShiftCommandRefine
  | 69 => some BuildWallConnectorCommandRefine
  | 71 => some SeekShelterCommandRefine
  | 72 => some PrequeueTechCommandRefine
  | 75 => some PrebuyGodPowerCommandRefine
  | _ => none

/-! ### Game command parse (`gameCommandParser.go`) -/

/-- The tail of Go `parseGameCommand` after the player id has been decoded:
the unit list, the vector list, the pre-argument bytes, and the dispatch to
the registered refiner.  (In the source this is the straight-line rest of
the same function; it is factored out because both player-id branches fall
into it.) -/
def parseGameCommandRest (data : Bytes) (commandType playerId offset lastCommandListIdx : Nat) :
    Except String RawGameCommand :=
  let offset := offset + 4
  let numUnits := readUint16 data offset
  let offset := offset + 4
  let sourceUnits := (List.range numUnits).map (fun i => readUint32 data (offset + 4 * i))
  let offset := offset + 4 * numUnits
  let numVectors := readUint16 data offset
  let offset := offset + 4
  let sourceVectors := (List.range numVectors).map (fun i => readVector data (offset + 12 * i))
  let offset := offset + 12 * numVectors
  let numPreArgumentBytes := (13 + readUint16 data offset) % 65536
  let offset := offset + 4
  -- the count is Go uint16 arithmetic, hence the reduction mod 2^16 above
  let preArgumentBytes := (List.range numPreArgumentBytes).map (fun i => byteAt data (offset + i))
  let offset := offset + numPreArgumentBytes
  match CommandFactoryGet commandType with
  | none => .error "refiner not defined for commandType"
  | some refiner =>
    .ok (refiner (newBaseCommand offset commandType playerId lastCommandListIdx
      sourceUnits sourceVectors preArgumentBytes) data)

/-- Go `parseGameCommand`: framing checks (the constant 3, then for the
standard header the constant 1 and the player id bound), then the rest. -/
def parseGameCommand (data : Bytes) (offset lastCommandListIdx : Nat) :
    Except String RawGameCommand :=
  let commandType := byteAt data (offset + 1)
  let tenBytesOffset := offset
  let offset := offset + 10
  let offset := if commandType = 14 then offset + 20 else offset + 8
  let three := readUint32 data offset
  let offset := offset + 4
  if three ≠ 3 then .error "expecting three while parsing game command"
  else if commandType = 19 then
    parseGameCommandRest data commandType (byteAt data (tenBytesOffset + 7))
      (offset + 4) lastCommandListIdx
  else
    let one := readUint16 data offset
    if one ≠ 1 then .error "expecting one while parsing game command"
    else
      let offset := offset + 4
      let playerId := readUint16 data offset
      if playerId > 12 then .error "player id must be 12 or less"
      else parseGameCommandRest data commandType playerId (offset + 4) lastCommandListIdx

/-! ### Command list framing (`gameCommandParser.go`) -/

/-- Go `CommandList`: the transient frame returned by `parseCommandList`.
`entryIdx` is `Int` because the resign short-circuit stores `-1`. -/
structure CommandList where
  entryIdx : Int
  offsetEnd : Nat
  finalCommand : Bool
  commands : List RawGameCommand
deriving DecidableEq, Inhabited

/-- Go `findFooterOffset`: reads the extra-byte count, checks the byte at
the position one past the count byte (the source logs the extra bytes but
does not advance the cursor past them), skips 9 bytes, reads the u16
quarter-length, skips 4, and ends 4 times the quarter-length later. -/
def findFooterOffset (data : Bytes) (offset : Nat) : Except String Nat :=
  let extraByteCount := byteAt data offset
  let offset := offset + 1
  let _extraByteNumbers := (List.range extraByteCount).map (fun i => byteAt data (offset + i))
  let unk := byteAt data offset
  if unk ≠ 1 then .error "UnkNotEqualTo1"
  else
    let offset := offset + 9
    let oneFourthFooterLength := readUint16 data offset
    let offset := offset + 4
    .ok (offset + 4 * oneFourthFooterLength)

/-- The inner loop of Go `parseCommandList` that parses `numItems` game
commands in sequence, each starting where the previous one ended. -/
def parseGameCommandsInner (data : Bytes) :
    Nat → Nat → Nat → List RawGameCommand → Except String (List RawGameCommand × Nat)
  | 0, offset, _, acc => .ok (acc, offset)
  | n + 1, offset, lastCommandListIdx, acc =>
    match parseGameCommand data offset lastCommandListIdx with
    | .error e => .error e
    | .ok command =>
      parseGameCommandsInner data n command.base.offsetEnd lastCommandListIdx
        (acc ++ [command])

/-- The first phase of Go `parseCommandList`: entry-type bitmask checks,
the bitmask-driven skips, the command batch, and the selected-units skip.
Returns the parsed commands and the cursor position right after them
(the point at which the source checks for a resign command). -/
def parseCommandListBody (data : Bytes) (offset lastCommandListIdx : Nat) :
    Except String (List RawGameCommand × Nat) :=
  let entryType := readUint32 data offset
  let offset := offset + 4
  let offset := offset + 1
  if entryType &&& 225 ≠ entryType then .error "bad entry type"
  else if entryType &&& 96 = 96 then .error "96 entryType does not make sense"
  else
    let offset := if entryType &&& 1 = 0 then offset + 4 else offset + 1
    let step :=
      if entryType &&& 96 ≠ 0 then
        let pair : Nat × Nat :=
          if entryType &&& 32 ≠ 0 then (byteAt data offset, offset + 1)
          else if entryType &&& 64 ≠ 0 then (readUint32 data offset, offset + 4)
          else (0, offset)
        parseGameCommandsInner data pair.1 pair.2 lastCommandListIdx []
      else .ok ([], offset)
    match step with
    | .error e => .error e
    | .ok (commands, offset) =>
      let offset :=
        if entryType &&& 128 ≠ 0 then offset + 1 + 4 * byteAt data offset else offset
      .ok (commands, offset)

/-- Go `parseCommandList`: the body above, then the resign short-circuit
(no trailing footer, entry index `-1`, `finalCommand` true), otherwise the
trailing footer, the entry index, and the zero final byte. -/
def parseCommandList (data : Bytes) (offset lastCommandListIdx : Nat) :
    Except String CommandList :=
  match parseCommandListBody data offset lastCommandListIdx with
  | .error e => .error e
  | .ok (commands, offset) =>
    if commands.any (fun c => c.base.commandType == 16) then
      .ok ⟨-1, offset, true, commands⟩
    else
      match findFooterOffset data offset with
      | .error e => .error e
      | .ok footerEndOffset =>
        let offset := footerEndOffset
        let entryIdx := readUint32 data offset
        let offset := offset + 4
        let finalByte := byteAt data offset
        if finalByte ≠ 0 then .error "final byte does not equal 0"
        else .ok ⟨(entryIdx : Int), offset + 1, false, commands⟩

/-- Whether `needle` occurs at the head of `haystack`. -/
def startsWithBytes : Bytes → Bytes → Bool
  | _, [] => true
  | [], _ :: _ => false
  | a :: as, b :: bs => a == b && startsWithBytes as bs

/-- Go `bytes.Index`: the first index at which `needle` occurs. -/
def bytesIndex : Bytes → Bytes → Option Nat
  | [], needle => if needle.isEmpty then some 0 else none
  | a :: rest, needle =>
    if startsWithBytes (a :: rest) needle then some 0
    else (bytesIndex rest needle).map (· + 1)

/-- The 8-byte separator between command lists. -/
def FOOTER : Bytes := [0, 1, 0, 0, 0, 0, 0, 0]

/-- The outer loop of Go `parseGameCommands`.  Like the source it returns
the commands accumulated so far together with an optional error.  The
source loop always advances the cursor strictly (a parsed command list
ends past its entry index), so the explicit fuel - always instantiated
with more than `data.length` - is never exhausted on the source's
reachable states; exhaustion is reported as an error. -/
def parseGameCommandsLoop (data : Bytes) :
    Nat → Nat → Nat → List RawGameCommand → List RawGameCommand × Option String
  | 0, _, _, acc => (acc, some "out of fuel")
  | fuel + 1, offset, lastIndex, acc =>
    if offset = data.length - 1 then (acc, none)
    else
      match parseCommandList data offset lastIndex with
      | .error e => (acc, some e)
      | .ok item =>
        let acc := acc ++ item.commands
        if item.finalCommand then (acc, none)
        else
          let lastIndex := lastIndex + 1
          if item.entryIdx ≠ (lastIndex : Int) then (acc, some "entryIdx was not sequential")
          else parseGameCommandsLoop data fuel item.offsetEnd lastIndex acc

/-- Go `parseGameCommands`: locate the first `FOOTER` after the header end,
skip past that footer plus 5 bytes, then run the command-list loop with
`lastIndex` starting at 1. -/
def parseGameCommands (data : Bytes) (headerEndOffset : Nat) :
    List RawGameCommand × Option String :=
  match bytesIndex (data.drop headerEndOffset) FOOTER with
  | none => ([], some "footer not found")
  | some offset =>
    match findFooterOffset data (headerEndOffset + offset) with
    | .error e => ([], some e)
    | .ok firstFootEnd =>
      parseGameCommandsLoop data (data.length + 1) (firstFootEnd + 5) 1 []

/-! ### Header tree walker (`header.go`, `consts.go`) -/

def OUTER_HIERARCHY_START_OFFSET : Nat := 257

def MAX_SCAN_OFFSET : Nat := 50

def DATA_OFFSET : Nat := 6

/-- Go `Node`: a two-byte token (kept as the raw byte pair), an absolute
offset, a 32-bit data length, and the children.  The Go parent back
pointer is only used for path printing and is dropped. -/
inductive Node where
  | mk (token : List Nat) (offset : Nat) (size : Nat) (children : List Node)

def Node.token : Node → List Nat
  | .mk t _ _ _ => t

def Node.offset : Node → Nat
  | .mk _ o _ _ => o

def Node.size : Node → Nat
  | .mk _ _ s _ => s

def Node.children : Node → List Node
  | .mk _ _ _ c => c

/-- Go `Node.endOffset`. -/
def Node.endOffset (n : Node) : Nat := n.offset + n.size + DATA_OFFSET

/-- Go `newNode`: token bytes at `offset`, length u32 at `offset + 2`. -/
def newNode (data : Bytes) (offset : Nat) : Node :=
  .mk [byteAt data offset, byteAt data (offset + 1)] offset (readUint32 data (offset + 2)) []

/-- Go `validAlphaNumericAscii`. -/
def validAlphaNumericAscii (c : Nat) : Bool :=
  (65 ≤ c && c ≤ 90) || (97 ≤ c && c ≤ 122) || (48 ≤ c && c ≤ 57)

/-- Go `areBytesValidTokens` at the two bytes the scanner tracks. -/
def areBytesValidTokens (b1 b2 : Nat) : Bool :=
  validAlphaNumericAscii b1 && validAlphaNumericAscii b2

/-- The scan loop of Go `findTwoLetterSeq`.  The source loop increments
`position` once per iteration and unconditionally stops once
`position > offset + MAX_SCAN_OFFSET`, so it runs at most
`MAX_SCAN_OFFSET + 2` iterations; the fuel below is exactly that bound
and is therefore never exhausted. -/
def findTwoLetterSeqLoop (data : Bytes) (offset ub : Nat) :
    Nat → Nat → Nat → Nat → Option Nat
  | 0, _, _, _ => none
  | fuel + 1, position, b1, b2 =>
    if ub ≤ position then none
    else if areBytesValidTokens b1 b2 then some position
    else
      let p := position + 1
      if data.length - 1 < p + 1 then none
      else
        let b2n := byteAt data (p + 1)
        if offset + MAX_SCAN_OFFSET < p then none
        else findTwoLetterSeqLoop data offset ub fuel p b2 b2n

/-- Go `findTwoLetterSeq`.  (The `upperBound == -1` rewrite in the source
is unreachable from `createTree`, which always passes a node end offset,
and is omitted.) -/
def findTwoLetterSeq (data : Bytes) (offset ub : Nat) : Option Nat :=
  if ub < offset + 2 ∨ data.length ≤ offset then none
  else
    findTwoLetterSeqLoop data offset ub (MAX_SCAN_OFFSET + 2) offset
      (byteAt data offset) (byteAt data (offset + 1))

/-- Go `NODES_WITH_SUBSTRUCTURE`: the container tokens
BG, J1, PL, BP, MP, GM, GD as byte pairs. -/
def NODES_WITH_SUBSTRUCTURE : List (List Nat) :=
  [[66, 71], [74, 49], [80, 76], [66, 80], [77, 80], [71, 77], [71, 68]]

/-- The child-gathering loop of Go `createTree`: scan the parent data
region for candidate child headers; each found child moves the cursor to
its end offset, which is at least 6 bytes further, so the loop runs fewer
than `parentEnd` iterations and the fuel (instantiated with
`parentEnd + 1`) is never exhausted. -/
def createTreeChildrenLoop (data : Bytes) (parentEnd : Nat) :
    Nat → Nat → List Node → List Node
  | 0, _, acc => acc
  | fuel + 1, position, acc =>
    if position < parentEnd then
      match findTwoLetterSeq data position parentEnd with
      | none => acc
      | some loc =>
        let childNode := newNode data loc
        createTreeChildrenLoop data parentEnd fuel childNode.endOffset (acc ++ [childNode])
    else acc

/-- Go `createTree`: gather the children of the node, then recurse into
every child whose token is a container token.  Recursion is fuelled: each
level descends to a child whose offset is strictly larger than its
parent's and below `data.length`, so the depth is bounded by
`data.length` and the fuel used by `ParseHeader` is never exhausted. -/
def createTree (data : Bytes) : Nat → Node → Node
  | 0, node => node
  | fuel + 1, node =>
    let children :=
      createTreeChildrenLoop data node.endOffset (node.endOffset + 1)
        (node.offset + 6) []
    let children := children.map fun c =>
      if NODES_WITH_SUBSTRUCTURE.contains c.token then createTree data fuel c else c
    .mk node.token node.offset node.size children

/-- Go `ParseHeader`: build the tree from the node read at
`OUTER_HIERARCHY_START_OFFSET`. -/
def ParseHeader (data : Bytes) : Node :=
  createTree data (data.length + 1) (newNode data OUTER_HIERARCHY_START_OFFSET)

/-! ### Semantic assembler (`formatter.go`, `types.go`) -/

def VERSION : String := "v0.3.1"

/-- Go `ProfileKey`, restricted to the value fields the assembler reads. -/
structure ProfileKey where
  StringVal : String
  Int32Val : Int
  BoolVal : Bool
deriving DecidableEq, Inhabited

/-- The profile-key table, as an association list; a missing key yields
the Go zero value, as with a Go map read. -/
abbrev ProfileKeys := List (String × ProfileKey)

def profileKeyGet (keys : ProfileKeys) (k : String) : ProfileKey :=
  (keys.lookup k).getD default

/-- Go XMB node (`types.go`), restricted to the fields the assembler
reads; offsets are dropped. -/
inductive XmbNode where
  | mk (elementName : String) (value : String) (attributes : List (String × String))
      (children : List XmbNode)

def XmbNode.elementName : XmbNode → String
  | .mk e _ _ _ => e

def XmbNode.value : XmbNode → String
  | .mk _ v _ _ => v

def XmbNode.attributes : XmbNode → List (String × String)
  | .mk _ _ a _ => a

def XmbNode.children : XmbNode → List XmbNode
  | .mk _ _ _ c => c

instance : Inhabited XmbNode := ⟨.mk "" "" [] []⟩

/-- Positional child lookup (`root.children[id]`); the Go index panic on
an out-of-range id is modelled by the default empty node. -/
def xmbChildAt (n : XmbNode) (i : Int) : XmbNode :=
  n.children.getD i.toNat default

/-- Attribute lookup (`node.attributes[k]`, Go zero value on a miss). -/
def xmbAttr (n : XmbNode) (k : String) : String :=
  (n.attributes.lookup k).getD ""

/-- Go `FormatterInput`. -/
structure FormatterInput where
  protoRootNode : XmbNode
  techTreeRootNode : XmbNode
  powersRootNode : XmbNode

/-- The polymorphic `Payload` of a formatted command: the closed set of
shapes the `Format` methods in `part_003` produce. -/
inductive ReplayPayload where
  | str (s : String)
  | buildPayload (Name : String) (Location : Vector3) (Queued : Bool)
  | protoPowerPayload (Name : String) (Location1 : Vector3) (Location2 : Vector3)
  | marketPayload (ResourceType : String) (Action : String) (Quantity : Nat)
  | vec (v : Vector3)
deriving DecidableEq, Inhabited

/-- Go `ReplayGameCommand`. -/
structure ReplayGameCommand where
  GameTimeSecs : ℚ
  PlayerNum : Nat
  CommandType : String
  Payload : ReplayPayload
deriving DecidableEq, Inhabited

/-- The `Format` methods of `part_003`, dispatched over the payload
variant; commands whose Go type has no `Format` override fall through to
the `BaseCommand` default, which reports `ok = false` (here `none`). -/
def FormatCommand (cmd : RawGameCommand) (input : FormatterInput) : Option ReplayGameCommand :=
  let t := cmd.base.gameTimeSecs
  let p := cmd.base.playerId
  match cmd.payload with
  | .plain => none
  | .research techId =>
    some ⟨t, p, "research", .str (xmbAttr (xmbChildAt input.techTreeRootNode techId) "name")⟩
  | .train protoUnitId _ =>
    some ⟨t, p, "train", .str (xmbAttr (xmbChildAt input.protoRootNode protoUnitId) "name")⟩
  | .build protoBuildingId location queued =>
    some ⟨t, p, "build",
      .buildPayload (xmbAttr (xmbChildAt input.protoRootNode protoBuildingId) "name")
        location queued⟩
  | .protoPower protoPowerId location1 location2 =>
    let power := xmbChildAt input.powersRootNode protoPowerId
    let commandType :=
      if (power.attributes.lookup "godpower").isSome then "godPower" else "protoPower"
    some ⟨t, p, commandType, .protoPowerPayload (xmbAttr power "name") location1 location2⟩
  | .buySell resourceType action quantity =>
    some ⟨t, p, "marketBuySell", .marketPayload resourceType action quantity⟩
  | .resign => some ⟨t, p, "resign", .str (toString p)⟩
  | .townBell => some ⟨t, p, "townBell", .str (toString p)⟩
  | .taunt tauntId => some ⟨t, p, "taunt", .str (toString tauntId)⟩
  | .cheat cheatId => some ⟨t, p, "cheat", .str (toString cheatId)⟩
  | .setFormation formation => some ⟨t, p, "setFormation", .str formation⟩
  | .timeShift location => some ⟨t, p, "timeShift", .vec location⟩
  | .autoqueue protoUnitId =>
    some ⟨t, p, "autoqueue", .str (xmbAttr (xmbChildAt input.protoRootNode protoUnitId) "name")⟩
  | .prequeueTech techId =>
    some ⟨t, p, "prequeueTech", .str (xmbAttr (xmbChildAt input.techTreeRootNode techId) "name")⟩

/-- Go `formatCommandsToReplayFormat` (the `playerMap` the source builds
is never read and is dropped). -/
def formatCommandsToReplayFormat (commandList : List RawGameCommand)
    (techTreeRootNode protoRootNode powersRootNode : XmbNode) : List ReplayGameCommand :=
  commandList.filterMap fun command =>
    FormatCommand command
      ⟨protoRootNode, techTreeRootNode, powersRootNode⟩

/-- Go `getLosingTeams`: collect the set of player ids that issued a
resign (type 16) command, error when empty, then map them to team ids
through the profile keys, error when that set is empty. -/
def getLosingTeams (commandList : List RawGameCommand) (profileKeys : ProfileKeys) :
    Except String (List Int) :=
  let resigningPlayers := commandList.foldl
    (fun acc c =>
      if c.base.commandType == 16 && !acc.contains c.base.playerId
      then acc ++ [c.base.playerId] else acc) []
  if resigningPlayers.isEmpty then .error "no resign commands found"
  else
    let teamIds := resigningPlayers.foldl
      (fun acc playerId =>
        match profileKeys.lookup ("gameplayer" ++ toString playerId ++ "teamid") with
        | some teamKey =>
          if !acc.contains teamKey.Int32Val then acc ++ [teamKey.Int32Val] else acc
        | none => acc) []
    if teamIds.isEmpty then .error "could not find team IDs for resigning players"
    else .ok teamIds

/-- Go `buildGodMap`: id 0 is Nature, then the `name` grandchildren of
the `civ` children in order. -/
def buildGodMap (godRootNode : XmbNode) : List (Int × String) :=
  let step := godRootNode.children.foldl
    (fun (st : Nat × List (Int × String)) child =>
      if child.elementName = "civ" then
        child.children.foldl
          (fun (st : Nat × List (Int × String)) elem =>
            if elem.elementName = "name" then (st.1 + 1, st.2 ++ [((st.1 : Int), elem.value)])
            else st) st
      else st)
    (1, [((0 : Int), "Nature")])
  step.2

/-- Go `isAgeUpTech`. -/
def isAgeUpTech (value : String) : Bool :=
  value.startsWith "ClassicalAge" || value.startsWith "HeroicAge" ||
    value.startsWith "MythicAge"

/-- Go `strings.TrimPrefix` under a `HasPrefix` guard: drop the leading
pattern. -/
def stripLead (pat s : String) : String := s.drop pat.length

/-- Go `getMinorGods`: the age-up techs of the player in command order,
then the last classical/heroic/mythic entry each, with the age name
stripped. -/
def getMinorGods (playerNum : Nat) (commandList : List RawGameCommand)
    (techTreeRootNode : XmbNode) : String × String × String :=
  let ageUpTechs := commandList.foldl
    (fun (acc : List String) c =>
      if c.base.playerId ≠ playerNum then acc
      else
        match c.payload with
        | .research techId =>
          let tech := xmbAttr (xmbChildAt techTreeRootNode techId) "name"
          if isAgeUpTech tech then acc ++ [tech] else acc
        | .prequeueTech techId =>
          let tech := xmbAttr (xmbChildAt techTreeRootNode techId) "name"
          if isAgeUpTech tech then acc ++ [tech] else acc
        | _ => acc) []
  ageUpTechs.foldl
    (fun (st : String × String × String) tech =>
      if tech.startsWith "ClassicalAge" then (stripLead "ClassicalAge" tech, st.2.1, st.2.2)
      else if tech.startsWith "HeroicAge" then (st.1, stripLead "HeroicAge" tech, st.2.2)
      else if tech.startsWith "MythicAge" then (st.1, st.2.1, stripLead "MythicAge" tech)
      else st)
    ("", "", "")

/-- Go `getEAPM`: count the commands of the player with `affectsEAPM`
set, divided by the game length in minutes. -/
def getEAPM (playerNum : Nat) (commandList : List RawGameCommand)
    (gameLengthSecs : ℚ) : ℚ :=
  let actions : Nat := commandList.foldl
    (fun actions command =>
      if command.base.playerId == playerNum && command.base.affectsEAPM
      then actions + 1 else actions) 0
  let gameLengthMins := gameLengthSecs / 60
  (actions : ℚ) / gameLengthMins

/-- Go `playerExists`: the player's name key is non-empty. -/
def playerExists (profileKeys : ProfileKeys) (playerNum : Nat) : Bool :=
  (profileKeyGet profileKeys ("gameplayer" ++ toString playerNum ++ "name")).StringVal != ""

/-- The value of a digit run (the accumulation loop of Go `ParseInt`). -/
def digitsToNat (cs : List Char) : Nat :=
  cs.foldl (fun a c => a * 10 + (c.toNat - 48)) 0

/-- Go `strconv.Atoi` digits: a non-empty all-digit run, as a number. -/
def parseDecimalDigits (cs : List Char) : Option Nat :=
  if cs.isEmpty then none
  else if cs.all Char.isDigit then some (digitsToNat cs)
  else none

/-- Go `strconv.Atoi` (64-bit `int`): optional leading sign, decimal
digits, and failure - `ErrRange` in the source - when the value does not
fit a signed 64-bit integer. -/
def goAtoi (s : String) : Option Int :=
  let cs := s.toList
  let neg := cs.headD ' ' = '-'
  let digits := if cs.headD ' ' = '+' || cs.headD ' ' = '-' then cs.tail else cs
  match parseDecimalDigits digits with
  | none => none
  | some n =>
    let v : Int := if neg then -(n : Int) else (n : Int)
    if v < -(2 ^ 63) ∨ 2 ^ 63 - 1 < v then none else some v

/-- Go `ReplayPlayer`.  `ParsedAt`-style wall-clock data does not occur
here; `EAPM` (Go `float64`) is in `ℚ`. -/
structure ReplayPlayer where
  PlayerNum : Nat
  TeamId : Int
  Name : String
  ProfileId : Int
  Color : Int
  RandomGod : Bool
  God : String
  Winner : Bool
  EAPM : ℚ
  MinorGods : String × String × String
  Titan : Bool
  Wonder : Bool
  CivList : String
deriving DecidableEq, Inhabited

/-- Go `getPlayers`: players 1..12 that exist, skipping any whose
`rlinkid` does not parse as an integer (the source logs and continues). -/
def getPlayers (profileKeys : ProfileKeys) (majorGodMap : List (Int × String))
    (losingTeams : List Int) (gameLengthSecs : ℚ)
    (commandList : List RawGameCommand) (techTreeRootNode : XmbNode) :
    List ReplayPlayer :=
  ((List.range 12).map (· + 1)).filterMap fun playerNum =>
    if playerExists profileKeys playerNum then
      let keyBase := "gameplayer" ++ toString playerNum
      match goAtoi (profileKeyGet profileKeys (keyBase ++ "rlinkid")).StringVal with
      | none => none
      | some profileId =>
        let teamId := (profileKeyGet profileKeys (keyBase ++ "teamid")).Int32Val
        some
          { PlayerNum := playerNum
            TeamId := teamId
            Name := (profileKeyGet profileKeys (keyBase ++ "name")).StringVal
            ProfileId := profileId
            Color := (profileKeyGet profileKeys (keyBase ++ "color")).Int32Val
            RandomGod := (profileKeyGet profileKeys (keyBase ++ "civwasrandom")).BoolVal
            God := (majorGodMap.lookup
              (profileKeyGet profileKeys (keyBase ++ "civ")).Int32Val).getD ""
            Winner := !(losingTeams.contains teamId)
            EAPM := getEAPM playerNum commandList gameLengthSecs
            MinorGods := getMinorGods playerNum commandList techTreeRootNode
            Titan := false
            Wonder := false
            CivList := (profileKeyGet profileKeys (keyBase ++ "civlist")).StringVal }
    else none

/-- Go `getGameOptions`: the fixed closed key set, each read as a bool. -/
def getGameOptions (profileKeys : ProfileKeys) : List (String × Bool) :=
  ["gameaivsai", "gameallowaiassist", "gameallowcheats", "gameallowtitans",
   "gameblockade", "gameconquest", "gamecontrolleronly", "gamefreeforall",
   "gameismpcoop", "gameismpscenario", "gamekoth", "gameludicrousmode",
   "gamemaprecommendedsettings", "gamemilitaryautoqueue", "gamenomadstart",
   "gameonevsall", "gameregicide", "gamerestored", "gamerestrictpause",
   "gamermdebug", "gamestorymode", "gamesuddendeath", "gameteambalanced",
   "gameteamlock", "gameteamsharepop", "gameteamshareres", "gameteamvictory",
   "gameusedenforcedagesettings"].map
    fun key => (key, (profileKeyGet profileKeys key).BoolVal)

/-- Go `addTechsToPlayers`: gather per player the `TitanGate` god powers
and `Wonder` builds, then set the corresponding flags. -/
def addTechsToPlayers (players : List ReplayPlayer)
    (gameCommands : List ReplayGameCommand) : List ReplayPlayer :=
  let playerTechs : List (Nat × String) := gameCommands.foldl
    (fun acc command =>
      if command.CommandType = "godPower" then
        match command.Payload with
        | .protoPowerPayload name _ _ =>
          if name = "TitanGate" then acc ++ [(command.PlayerNum, name)] else acc
        | _ => acc
      else if command.CommandType = "build" then
        match command.Payload with
        | .buildPayload name _ _ =>
          if name = "Wonder" then acc ++ [(command.PlayerNum, name)] else acc
        | _ => acc
      else acc) []
  players.map fun player =>
    (playerTechs.filterMap fun pt =>
      if pt.1 = player.PlayerNum then some pt.2 else none).foldl
      (fun player tech =>
        if tech = "TitanGate" then { player with Titan := true }
        else if tech = "Wonder" then { player with Wonder := true }
        else player) player

/-- Go `strings.Split(s, " ")` on the character list. -/
def splitOnSpace : List Char → List (List Char)
  | [] => [[]]
  | c :: rest =>
    if c = ' ' then [] :: splitOnSpace rest
    else
      match splitOnSpace rest with
      | h :: t => (c :: h) :: t
      | [] => [[c]]

/-- Go `strings.Split(buildString, " ")`. -/
def stringsSplitSpace (s : String) : List String :=
  (splitOnSpace s.toList).map fun l => String.mk l

/-- Go `getBuildNumber`: second space-separated field through `Atoi`,
`-1` on too few fields or a failed parse. -/
def getBuildNumber (buildString : String) : Int :=
  let parts := stringsSplitSpace buildString
  if parts.length < 2 then -1
  else
    match goAtoi (parts.getD 1 "") with
    | none => -1
    | some buildNumber => buildNumber

/-- Go `ReplayFormatted`.  `ParsedAt` (a wall-clock timestamp) is outside
the shallow embedding and dropped; the per-player statistics record built
by `calcStats` (`part_005`) is outside the claims and only its presence
is tracked. -/
structure ReplayFormatted where
  MapName : String
  BuildNumber : Int
  BuildString : String
  ParserVersion : String
  GameLengthSecs : ℚ
  GameSeed : Int
  WinningTeam : Int
  GameOptions : List (String × Bool)
  Players : List ReplayPlayer
  Stats : Option Unit
  GameCommands : Option (List ReplayGameCommand)
deriving DecidableEq

/-- Go `formatRawDataToReplay`.  The two subcomponents that live outside
the assembler - `readBuildString` (header-string extraction over the blob
and root node) and `parseXmb` (the XMB decoder, applied to the map entry
for each name) - are passed in as function arguments and quantified over
in the theorems; the sequencing, error propagation and record assembly
follow the source line by line. -/
def formatRawDataToReplay (readBuildStringF : Except String String)
    (parseXmbF : String → Except String XmbNode) (slim stats : Bool)
    (profileKeys : ProfileKeys) (commandList : List RawGameCommand) :
    Except String ReplayFormatted :=
  match readBuildStringF with
  | .error e => .error e
  | .ok buildString =>
    let buildNumber := getBuildNumber buildString
    match parseXmbF "civs" with
    | .error e => .error e
    | .ok godsRootNode =>
      let majorGodMap := buildGodMap godsRootNode
      match parseXmbF "techtree" with
      | .error e => .error e
      | .ok techTreeRootNode =>
        match getLosingTeams commandList profileKeys with
        | .error e => .error e
        | .ok losingTeams =>
          let gameLengthSecs := (commandList.getLastD default).base.gameTimeSecs
          let players := getPlayers profileKeys majorGodMap losingTeams gameLengthSecs
            commandList techTreeRootNode
          let winningTeam := ((players.filter (·.Winner)).head?.map (·.TeamId)).getD 0
          let gameOptions := getGameOptions profileKeys
          match parseXmbF "proto" with
          | .error e => .error e
          | .ok protoRootNode =>
            match parseXmbF "powers" with
            | .error e => .error e
            | .ok powersRootNode =>
              let gameCommands := formatCommandsToReplayFormat commandList
                techTreeRootNode protoRootNode powersRootNode
              let players := addTechsToPlayers players gameCommands
              .ok
                { MapName := (profileKeyGet profileKeys "gamemapname").StringVal
                  BuildNumber := buildNumber
                  BuildString := buildString
                  ParserVersion := VERSION
                  GameLengthSecs := gameLengthSecs
                  GameSeed := (profileKeyGet profileKeys "gamerandomseed").Int32Val
                  WinningTeam := winningTeam
                  GameOptions := gameOptions
                  Players := players
                  Stats := if stats then some () else none
                  GameCommands := if slim then none else some gameCommands }

/-! ### Shared lemmas about the refiners and the game-command parse -/

/-- The per-type payload width actually computed by the refiners in
`part_003` (the amended refiner table). -/
def refinerWidthTable (t : Nat) : Nat :=
  match t with
  | 0 => 44
  | 1 => 12
  | 2 => 18
  | 3 => 52
  | 4 => 32
  | 7 => 9
  | 9 => 8
  | 12 => 57
  | 13 => 20
  | 14 => 8
  | 16 => 21
  | 18 => 12
  | 19 => 25
  | 23 => 14
  | 25 => 14
  | 26 => 13
  | 34 => 8
  | 35 => 12
  | 37 => 13
  | 38 => 12
  | 41 => 41
  | 44 => 16
  | 45 => 20
  | 48 => 16
  | 53 => 12
  | 55 => 20
  | 66 => 12
  | 67 => 9
  | 68 => 32
  | 69 => 36
  | 71 => 8
  | 72 => 13
  | 75 => 16
  | _ => 0

/-- The per-type payload width as the claim (and the spec refiner table)
states it.  It differs from the source on four types: task (48 vs 44),
setGatherPoint (36 vs 32), setUnitStance (15 vs 14) and
buildWallConnector (35 vs 36). -/
def claimedWidthTable (t : Nat) : Nat :=
  match t with
  | 0 => 48
  | 1 => 12
  | 2 => 18
  | 3 => 52
  | 4 => 36
  | 7 => 9
  | 9 => 8
  | 12 => 57
  | 13 => 20
  | 14 => 8
  | 16 => 21
  | 18 => 12
  | 19 => 25
  | 23 => 14
  | 25 => 15
  | 26 => 13
  | 34 => 8
  | 35 => 12
  | 37 => 13
  | 38 => 12
  | 41 => 41
  | 44 => 16
  | 45 => 20
  | 48 => 16
  | 53 => 12
  | 55 => 20
  | 66 => 12
  | 67 => 9
  | 68 => 32
  | 69 => 35
  | 71 => 8
  | 72 => 13
  | 75 => 16
  | _ => 0

/-- Every registered refiner enriches the base command in place: it keeps
the payload offset, the command type, the player id and the game time,
sets `offsetEnd = offset + byteLength`, and sets `byteLength` to the
fixed width of its type. -/
theorem refine_base_props (t : Nat) (r : BaseCommand → Bytes → RawGameCommand)
    (h : CommandFactoryGet t = some r) (b : BaseCommand) (data : Bytes) :
    (r b data).base.offsetEnd = (r b data).base.offset + (r b data).base.byteLength ∧
    (r b data).base.byteLength = refinerWidthTable t ∧
    (r b data).base.commandType = b.commandType ∧
    (r b data).base.playerId = b.playerId ∧
    (r b data).base.gameTimeSecs = b.gameTimeSecs ∧
    (r b data).base.offset = b.offset := by
  unfold CommandFactoryGet at h
  split at h
  all_goals first
  | exact Option.noConfusion h
  | (injection h with h
     subst h
     simp [TaskCommandRefine, ResearchCommandRefine, TrainCommandRefine,
       BuildCommandRefine, SetGatherPointCommandRefine, DeleteCommandRefine,
       StopCommandRefine, ProtoPowerCommandRefine, BuySellResourcesCommandRefine,
       UngarrisonCommandRefine, ResignCommandRefine, UnknownCommand18Refine,
       TributeCommandRefine, FinishUnitTransformCommandRefine,
       SetUnitStanceCommandRefine, ChangeDiplomacyCommandRefine,
       TownBellCommandRefine, AutoScoutEventCommandRefine,
       ChangeControlGroupContentsCommandRefine, RepairCommandRefine,
       TauntCommandRefine, CheatCommandRefine, CancelQueuedItemCommandRefine,
       SetFormationCommandRefine, StartUnitTransformCommandRefine,
       UnknownCommand55Refine, AutoqueueCommandRefine,
       ToggleAutoUnitAbilityCommandRefine, TimeShiftCommandRefine,
       BuildWallConnectorCommandRefine, SeekShelterCommandRefine,
       PrequeueTechCommandRefine, PrebuyGodPowerCommandRefine,
       enrichBaseCommand, refinerWidthTable,
       unpackInt32, unpackInt8, unpackVector, unpackFloat])

/-- Inversion for the tail of the game-command parse: a successful result
is a refiner output over a base command carrying the supplied type,
player id and list index. -/
theorem parseGameCommandRest_ok {data : Bytes} {t pid o idx : Nat}
    {cmd : RawGameCommand}
    (h : parseGameCommandRest data t pid o idx = .ok cmd) :
    cmd.base.commandType = t ∧ cmd.base.playerId = pid ∧
    cmd.base.gameTimeSecs = (idx : ℚ) / 20 ∧
    cmd.base.offsetEnd = cmd.base.offset + cmd.base.byteLength ∧
    cmd.base.byteLength = refinerWidthTable t := by
  simp only [parseGameCommandRest] at h
  split at h
  · exact Except.noConfusion h
  · rename_i refiner heq
    injection h with h
    subst h
    have key := fun (b : BaseCommand) (d : Bytes) => refine_base_props t refiner heq b d
    exact ⟨(key _ _).2.2.1.trans rfl, (key _ _).2.2.2.1.trans rfl,
      (key _ _).2.2.2.2.1.trans rfl, (key _ _).1, (key _ _).2.1⟩

/-- Inversion for the full game-command parse: a successfully decoded
command carries the game time `lastCommandListIdx / 20`, satisfies
`offsetEnd = offset + byteLength`, has the byte length of its type from
the refiner table, and - when its type is not 19 - a player id at most
12 (the source checks the decoded u16 only against the upper bound). -/
theorem parseGameCommand_ok {data : Bytes} {offset idx : Nat}
    {cmd : RawGameCommand}
    (h : parseGameCommand data offset idx = .ok cmd) :
    cmd.base.gameTimeSecs = (idx : ℚ) / 20 ∧
    cmd.base.offsetEnd = cmd.base.offset + cmd.base.byteLength ∧
    cmd.base.byteLength = refinerWidthTable cmd.base.commandType ∧
    (cmd.base.commandType ≠ 19 → cmd.base.playerId ≤ 12) := by
  simp only [parseGameCommand] at h
  repeat' split at h
  all_goals try exact Except.noConfusion h
  all_goals
    obtain ⟨hct, hpid, htime, hoff, hlen⟩ := parseGameCommandRest_ok h
  all_goals
    exact ⟨htime, hoff, by rw [hlen, hct], by intro hne; omega⟩

/-! ### Concrete sample inputs used by the witnesses and counterexamples -/

deriving instance DecidableEq for Except

/-- A byte blob of the given length whose bytes are zero except at the
listed positions. -/
def mkBytes (len : Nat) (assocs : List (Nat × Nat)) : Bytes :=
  (List.range len).map fun i => ((assocs.lookup i).getD 0)

/-- A standalone type-0 (task) game command: type byte 0 at +1, the
constant 3 at +18, the constant 1 at +22, player id 3 at +26, and empty
unit / vector / pre-argument counts. -/
def taskSample : Bytes := mkBytes 59 [(18, 3), (22, 1), (26, 3)]

/-- A standalone type-9 (stop) game command with decoded player id 0. -/
def pid0Sample : Bytes := mkBytes 59 [(1, 9), (18, 3), (22, 1)]

/-- A standalone type-9 (stop) game command with decoded player id 3. -/
def stopSample : Bytes := mkBytes 59 [(1, 9), (18, 3), (22, 1), (26, 3)]

/-- A standalone type-13 (marketBuySell) game command with player id 2,
resource id 2 (payload +8, absolute 67) and quantity bits 0xC2480000
(the binary32 encoding of -50.0, at payload +16, absolute 75..78). -/
def marketSample : Bytes :=
  mkBytes 79 [(1, 13), (18, 3), (22, 1), (26, 2), (67, 2), (77, 72), (78, 194)]

/-- A complete command list at offset 0: entry type 32, one stop command
(player 3), a footer whose unk byte is 1, entry index 2 and final byte 0. -/
def commandListSample : Bytes :=
  mkBytes 96 [(0, 32), (9, 1), (11, 9), (28, 3), (32, 1), (36, 3), (78, 1), (91, 2)]

/-- The stop command decoded from `commandListSample` (list index 1). -/
def commandListSampleStop : RawGameCommand :=
  ⟨{ commandType := 9, playerId := 3, offset := 69, offsetEnd := 77,
     byteLength := 8, gameTimeSecs := (1 : ℚ) / 20, affectsEAPM := true,
     sourceUnits := [], sourceVectors := [],
     preArgumentBytes := List.replicate 13 0 }, .plain⟩

/-- A complete command stream: the 8-byte FOOTER at offset 0 (its second
byte doubles as the unk byte 1), first command list at offset 19 holding
one resign (type 16) command from player 3. -/
def resignStreamSample : Bytes :=
  mkBytes 88 [(1, 1), (19, 32), (28, 1), (30, 16), (47, 3), (51, 1), (55, 3)]

/-- The resign command decoded from `resignStreamSample` (list index 1). -/
def resignStreamSampleCmd : RawGameCommand :=
  ⟨{ commandType := 16, playerId := 3, offset := 88, offsetEnd := 109,
     byteLength := 21, gameTimeSecs := (1 : ℚ) / 20, affectsEAPM := false,
     sourceUnits := [], sourceVectors := [],
     preArgumentBytes := List.replicate 13 0 }, .resign⟩

/-- The type-0 task command decoded from `taskSample` (list index 1). -/
def taskSampleCmd : RawGameCommand :=
  ⟨{ commandType := 0, playerId := 3, offset := 59, offsetEnd := 103,
     byteLength := 44, gameTimeSecs := (1 : ℚ) / 20, affectsEAPM := true,
     sourceUnits := [], sourceVectors := [],
     preArgumentBytes := List.replicate 13 0 }, .plain⟩

/-- The type-9 stop command decoded from `stopSample` (list index 1). -/
def stopSampleCmd : RawGameCommand :=
  ⟨{ commandType := 9, playerId := 3, offset := 59, offsetEnd := 67,
     byteLength := 8, gameTimeSecs := (1 : ℚ) / 20, affectsEAPM := true,
     sourceUnits := [], sourceVectors := [],
     preArgumentBytes := List.replicate 13 0 }, .plain⟩

/-- The command list decoded from `commandListSample` (list index 1). -/
def commandListSampleList : CommandList := ⟨2, 96, false, [commandListSampleStop]⟩

/-- A footer whose byte right after the count byte is 0: rejected. -/
def footSampleErr : Bytes := [2, 0]

/-- A footer whose byte right after the count byte is 1: accepted. -/
def footSampleOk : Bytes := [0, 1]

/-- A footer with `extra_byte_count = 2` whose first extra byte is 1 but
whose byte following the two extra bytes is 0. -/
def footSampleSkip : Bytes := mkBytes 12 [(0, 2), (1, 1), (2, 1)]

/-! ### Claim C1 -/

/-- Claim C1, amended: every successfully decoded game command satisfies
`offset_end - offset = byte_length` with `offset` the start of the
type-specific payload, and `byte_length` equals the fixed per-type width
the refiners compute - which is the claimed table except on four types:
task is 44 (not 48), setGatherPoint 32 (not 36), setUnitStance 14
(not 15) and buildWallConnector 36 (not 35). -/
theorem parseGameCommand_length_matches_refiner (data : Bytes)
    (offset lastCommandListIdx : Nat) (cmd : RawGameCommand)
    (h : parseGameCommand data offset lastCommandListIdx = .ok cmd) :
    cmd.base.offsetEnd - cmd.base.offset = cmd.base.byteLength ∧
    cmd.base.byteLength = refinerWidthTable cmd.base.commandType := by
  obtain ⟨htime, hoff, hlen, hpid⟩ := parseGameCommand_ok h
  exact ⟨by omega, hlen⟩

/-- Witness for claim C1 at the concrete task command `taskSample`. -/
theorem parseGameCommand_length_matches_refiner_witness :
    parseGameCommand taskSample 0 1 = .ok taskSampleCmd ∧
    taskSampleCmd.base.offsetEnd - taskSampleCmd.base.offset =
      taskSampleCmd.base.byteLength ∧
    taskSampleCmd.base.byteLength =
      refinerWidthTable taskSampleCmd.base.commandType := by
  have hp : parseGameCommand taskSample 0 1 = .ok taskSampleCmd := by decide
  exact ⟨hp, parseGameCommand_length_matches_refiner taskSample 0 1 taskSampleCmd hp⟩

/-- Counterexample to claim C1 as stated: the task command decoded from
`taskSample` has byte length 44, but the claimed table gives task the
width 48. -/
theorem parseGameCommand_claimedWidth_counterexample :
    (parseGameCommand taskSample 0 1).map
      (fun c => (c.base.byteLength, claimedWidthTable c.base.commandType)) =
      .ok (44, 48) ∧ (44 : Nat) ≠ 48 := by decide

/-! ### Claim C2 -/

/-- All commands accumulated by the inner command loop carry the game
time of the supplied command-list index. -/
theorem parseGameCommandsInner_time (data : Bytes) (idx : Nat) :
    ∀ (n offset : Nat) (acc : List RawGameCommand)
      (res : List RawGameCommand × Nat),
      (∀ c ∈ acc, c.base.gameTimeSecs = (idx : ℚ) / 20) →
      parseGameCommandsInner data n offset idx acc = .ok res →
      ∀ c ∈ res.1, c.base.gameTimeSecs = (idx : ℚ) / 20 := by
  intro n
  induction n with
  | zero =>
    intro offset acc res hacc h
    simp only [parseGameCommandsInner] at h
    injection h with h
    subst h
    exact hacc
  | succ n ih =>
    intro offset acc res hacc h
    simp only [parseGameCommandsInner] at h
    split at h
    · exact Except.noConfusion h
    · rename_i command hcmd
      refine ih _ _ _ ?_ h
      intro c hc
      rcases List.mem_append.1 hc with hc | hc
      · exact hacc c hc
      · rcases List.mem_singleton.1 hc with rfl
        exact (parseGameCommand_ok hcmd).1

/-- All commands returned by the command-list body carry the game time
of the supplied command-list index. -/
theorem parseCommandListBody_time (data : Bytes) (offset idx : Nat)
    (cs : List RawGameCommand) (o : Nat)
    (h : parseCommandListBody data offset idx = .ok (cs, o)) :
    ∀ c ∈ cs, c.base.gameTimeSecs = (idx : ℚ) / 20 := by
  simp only [parseCommandListBody] at h
  split at h
  · exact Except.noConfusion h
  · split at h
    · exact Except.noConfusion h
    · split at h
      · exact Except.noConfusion h
      · rename_i commands offset2 heq
        injection h with h
        have hcs : commands = cs := congrArg Prod.fst h
        subst hcs
        split at heq
        · exact fun c hc =>
            parseGameCommandsInner_time data idx _ _ [] (commands, offset2)
              (by simp) heq c hc
        · injection heq with heq
          have hnil : commands = [] := (congrArg Prod.fst heq).symm
          subst hnil
          simp

/-- Claim C2, amended: every command in a successfully parsed command
list carries `game_time_secs = lastCommandListIdx / 20`, where
`lastCommandListIdx` is the running index the outer loop supplies - one
less than the entry index decoded from the stream for that list (the
outer loop increments its counter and then checks
`entryIdx = lastIndex + 1`).  So in terms of the decoded entry index the
game time is `(entry_idx - 1) / 20`, not `entry_idx / 20`. -/
theorem parseCommandList_gameTimeSecs (data : Bytes)
    (offset lastCommandListIdx : Nat) (r : CommandList)
    (h : parseCommandList data offset lastCommandListIdx = .ok r) :
    ∀ cmd ∈ r.commands, cmd.base.gameTimeSecs = (lastCommandListIdx : ℚ) / 20 := by
  simp only [parseCommandList] at h
  split at h
  · exact Except.noConfusion h
  · rename_i commands offset2 hbody
    split at h
    · injection h with h
      subst h
      exact parseCommandListBody_time data offset lastCommandListIdx
        commands offset2 hbody
    · split at h
      · exact Except.noConfusion h
      · split at h
        · exact Except.noConfusion h
        · injection h with h
          subst h
          exact parseCommandListBody_time data offset lastCommandListIdx
            commands offset2 hbody

/-- Witness for claim C2 at the concrete command list
`commandListSample` (supplied list index 1). -/
theorem parseCommandList_gameTimeSecs_witness :
    parseCommandList commandListSample 0 1 = .ok commandListSampleList ∧
    commandListSampleStop.base.gameTimeSecs = (1 : ℚ) / 20 := by
  have hp : parseCommandList commandListSample 0 1 = .ok commandListSampleList := by
    decide
  exact ⟨hp, parseCommandList_gameTimeSecs commandListSample 0 1
    commandListSampleList hp commandListSampleStop (by simp [commandListSampleList])⟩

/-- Counterexample to claim C2 as stated: `commandListSample` decodes to
a command list with entry index 2 whose single command has game time
1/20, and 1/20 is not 2/20 = entry_idx / 20. -/
theorem parseCommandList_entryIdx_time_counterexample :
    (parseCommandList commandListSample 0 1).map
      (fun r => (r.entryIdx, r.commands.map fun c => c.base.gameTimeSecs)) =
      .ok (2, [(1 : ℚ) / 20]) ∧ (1 : ℚ) / 20 ≠ (2 : ℚ) / 20 := by decide

/-! ### Claim C3 -/

/-- Claim C3, amended: for every command decoded via the standard header
(type other than 19) the decoded player id is at most 12; the source
checks the decoded u16 only against the upper bound, so player id 0 is
accepted and the actual range is 0..=12, not 1..=12.  A u16 player id
above 12 makes the parse fail before a command is produced (this theorem
is the contrapositive: a produced command is in range). -/
theorem parseGameCommand_playerId_le_twelve (data : Bytes)
    (offset lastCommandListIdx : Nat) (cmd : RawGameCommand)
    (h : parseGameCommand data offset lastCommandListIdx = .ok cmd)
    (h19 : cmd.base.commandType ≠ 19) : cmd.base.playerId ≤ 12 :=
  (parseGameCommand_ok h).2.2.2 h19

/-- Witness for claim C3 at the concrete stop command `stopSample`. -/
theorem parseGameCommand_playerId_le_twelve_witness :
    parseGameCommand stopSample 0 1 = .ok stopSampleCmd ∧
    stopSampleCmd.base.playerId ≤ 12 := by
  have hp : parseGameCommand stopSample 0 1 = .ok stopSampleCmd := by decide
  exact ⟨hp, parseGameCommand_playerId_le_twelve stopSample 0 1 stopSampleCmd hp
    (by decide)⟩

/-- Counterexample to claim C3 as stated: `pid0Sample` decodes via the
standard header (type 9) to a command with player id 0, outside 1..=12,
yet the parse succeeds. -/
theorem parseGameCommand_playerId_zero_counterexample :
    (parseGameCommand pid0Sample 0 1).map
      (fun c => (c.base.commandType, c.base.playerId)) = .ok (9, 0) ∧
    ¬(1 ≤ (0 : Nat)) := by decide

/-! ### Claim C4 -/

/-- Claim C4, amended: at a footer start the decoder reads the 1-byte
`extra_byte_count` and the extra bytes (used only for logging - the
cursor is NOT advanced past them), and the byte checked against 1 is the
single byte immediately after the count byte (the first extra byte when
the count is positive).  When that byte differs from 1 the result is the
`UnkNotEqualTo1` error; otherwise the footer end offset is
`start + 14 + 4 * u16(start + 10)`. -/
theorem findFooterOffset_unk_check (data : Bytes) (offset : Nat) :
    (byteAt data (offset + 1) ≠ 1 →
      findFooterOffset data offset = .error "UnkNotEqualTo1") ∧
    (byteAt data (offset + 1) = 1 →
      findFooterOffset data offset =
        .ok (offset + 14 + 4 * readUint16 data (offset + 10))) := by
  constructor
  · intro h
    simp [findFooterOffset, h]
  · intro h
    simp only [findFooterOffset, h]
    norm_num

/-- Witness for claim C4 at two concrete footers. -/
theorem findFooterOffset_unk_check_witness :
    findFooterOffset footSampleErr 0 = .error "UnkNotEqualTo1" ∧
    findFooterOffset footSampleOk 0 =
      .ok (0 + 14 + 4 * readUint16 footSampleOk 10) :=
  ⟨(findFooterOffset_unk_check footSampleErr 0).1 (by decide),
   (findFooterOffset_unk_check footSampleOk 0).2 (by decide)⟩

/-- Counterexample to claim C4 as stated: in `footSampleSkip` the count
byte is 2 and the byte following the two extra bytes is 0 (not 1), so the
claim demands the `UnkNotEqualTo1` error; the decoder instead checks the
first extra byte (which is 1) and succeeds with footer end 14. -/
theorem findFooterOffset_extra_bytes_counterexample :
    byteAt footSampleSkip 0 = 2 ∧ byteAt footSampleSkip 3 = 0 ∧
    findFooterOffset footSampleSkip 0 = .ok 14 ∧ (0 : Nat) ≠ 1 := by decide

/-! ### Claim C5 -/

/-- Claim C5: if any parsed command inside a command list has type 16
(resign), `parseCommandList` returns immediately with entry index -1,
`final = true` and the cursor right after the command batch - without
reading a trailing footer, entry index or final byte - and the outer
command-stream loop then stops at that list, returning the commands
accumulated so far with no error. -/
theorem parseCommandList_resign_short_circuit (data : Bytes)
    (offset lastCommandListIdx : Nat) (cs : List RawGameCommand) (o : Nat)
    (hbody : parseCommandListBody data offset lastCommandListIdx = .ok (cs, o))
    (hresign : ∃ c ∈ cs, c.base.commandType = 16) :
    parseCommandList data offset lastCommandListIdx =
      .ok ⟨-1, o, true, cs⟩ ∧
    ∀ (fuel : Nat) (acc : List RawGameCommand), offset ≠ data.length - 1 →
      parseGameCommandsLoop data (fuel + 1) offset lastCommandListIdx acc =
        (acc ++ cs, none) := by
  obtain ⟨c, hc, ht⟩ := hresign
  have hany : cs.any (fun c => c.base.commandType == 16) = true :=
    List.any_eq_true.mpr ⟨c, hc, by simp [ht]⟩
  have hlist : parseCommandList data offset lastCommandListIdx =
      .ok ⟨-1, o, true, cs⟩ := by
    simp only [parseCommandList, hbody, hany]
    simp
  refine ⟨hlist, fun fuel acc hne => ?_⟩
  simp only [parseGameCommandsLoop, hlist]
  rw [if_neg hne]
  simp

/-- Witness for claim C5 at the concrete resign stream
`resignStreamSample`. -/
theorem parseCommandList_resign_short_circuit_witness :
    parseCommandList resignStreamSample 19 1 =
      .ok ⟨-1, 109, true, [resignStreamSampleCmd]⟩ ∧
    parseGameCommandsLoop resignStreamSample 89 19 1 [] =
      ([resignStreamSampleCmd], none) := by
  have h := parseCommandList_resign_short_circuit resignStreamSample 19 1
    [resignStreamSampleCmd] 109 (by decide)
    ⟨resignStreamSampleCmd, by simp, by decide⟩
  exact ⟨h.1, by simpa using h.2 88 [] (by decide)⟩

/-! ### Claim C6 -/

/-- A 300-byte blob with the token bytes `B` (66) and `G` (71) at offset
257, where `ParseHeader` actually reads its root node. -/
def headerSample : Bytes :=
  (List.range 300).map fun i => if i = 257 then 66 else if i = 258 then 71 else 0

/-- Claim C6, amended: the header tree walker returns a tree whose root
node is located at absolute offset `OUTER_HIERARCHY_START_OFFSET = 257`
of the blob - not offset 0 - and whose token is the (unvalidated) byte
pair read at that offset; on a well-formed replay those bytes are `BG`. -/
theorem ParseHeader_root_offset (data : Bytes) :
    (ParseHeader data).offset = OUTER_HIERARCHY_START_OFFSET ∧
    (ParseHeader data).token = [byteAt data 257, byteAt data 258] := by
  simp [ParseHeader, createTree, newNode, Node.offset, Node.token,
    OUTER_HIERARCHY_START_OFFSET]

/-- Counterexample to claim C6 as stated: on a blob carrying `BG` at
offset 257 the walker returns that token, but the root offset is 257,
not 0. -/
theorem ParseHeader_offset_counterexample :
    (ParseHeader headerSample).offset = 257 ∧
    (ParseHeader headerSample).token = [66, 71] ∧ (257 : Nat) ≠ 0 := by decide

/-! ### Claim C7 -/

/-- The resource mapping as the claim states it: 1 is wood, 2 is food,
anything else unknown (spec-side definition, to compare with the
refiner). -/
def specMarketResource (resourceId : Int) : String :=
  if resourceId = 1 then "wood"
  else if resourceId = 2 then "food"
  else "unknown"

/-- Claim C7: the type-13 refiner maps the decoded resource id through
the wood/food/unknown table, sells exactly when the f32 quantity at
payload +16 is negative (negating it), and buys otherwise; in
particular the full command parse of `marketSample` (resource id 2,
quantity bits 0xC2480000 = -50.0) yields resource food, action sell, and
quantity bits 0x42480000 = +50.0. -/
theorem BuySellResources_refine_spec :
    (∀ (b : BaseCommand) (data : Bytes),
      (BuySellResourcesCommandRefine b data).payload =
        .buySell (specMarketResource (readInt32 data (b.offset + 8)))
          (if float32IsNeg (readFloatBits data (b.offset + 16)) then "sell" else "buy")
          (if float32IsNeg (readFloatBits data (b.offset + 16))
            then float32Neg (readFloatBits data (b.offset + 16))
            else readFloatBits data (b.offset + 16))) ∧
    (parseGameCommand marketSample 0 1).map (fun c => c.payload) =
      .ok (.buySell "food" "sell" 1112014848) ∧
    float32Val 3259498496 = -50 ∧ float32Val 1112014848 = 50 ∧
    float32IsNeg 3259498496 = true ∧ float32Neg 3259498496 = 1112014848 := by
  refine ⟨fun b data => ?_, by decide, by decide, by decide, by decide, by decide⟩
  simp [BuySellResourcesCommandRefine, specMarketResource]

/-! ### Claim C10 -/

/-- Spec-side: the character list is a decimal integer numeral (an
optional sign followed by at least one digit). -/
def specIsDecimalIntChars (cs : List Char) : Bool :=
  match cs with
  | [] => false
  | c :: rest =>
    if c = '+' || c = '-' then !rest.isEmpty && rest.all Char.isDigit
    else (c :: rest).all Char.isDigit

/-- Spec-side: the integer denoted by a decimal numeral. -/
def specDecimalValChars (cs : List Char) : Int :=
  if cs.headD ' ' = '-' then -(digitsToNat cs.tail : Int)
  else if cs.headD ' ' = '+' then (digitsToNat cs.tail : Int)
  else (digitsToNat cs : Int)

/-- Spec-side: the value fits a signed 64-bit integer. -/
def specFitsInt64 (v : Int) : Bool :=
  decide (-(2 ^ 63) ≤ v ∧ v ≤ 2 ^ 63 - 1)

/-- The range-check branch of `goAtoi` agrees with `specFitsInt64`. -/
theorem rangeCheck_eq_fits (v : Int) :
    (if v < -(2 ^ 63) ∨ (2 ^ 63 : Int) - 1 < v then (none : Option Int) else some v) =
      (if specFitsInt64 v then some v else none) := by
  simp only [specFitsInt64, decide_eq_true_eq]
  split_ifs with h1 h2 <;> first | rfl | (exfalso; omega)

/-- `goAtoi` succeeds exactly on decimal numerals that fit a signed
64-bit integer, and returns their value. -/
theorem goAtoi_eq_spec (s : String) :
    goAtoi s =
      (if specIsDecimalIntChars s.toList &&
          specFitsInt64 (specDecimalValChars s.toList)
       then some (specDecimalValChars s.toList) else none) := by
  rcases hcs : s.toList with _ | ⟨c, rest⟩
  all_goals have hdata : s.data = _ := hcs
  · simp [goAtoi, hdata, parseDecimalDigits, specIsDecimalIntChars, hcs]
  · by_cases hne : rest = []
    all_goals
      try have hdig := Decidable.em (rest.all Char.isDigit = true)
    · by_cases hplus : c = '+'
      · subst hplus hne
        simp [goAtoi, hdata, parseDecimalDigits, specIsDecimalIntChars, hcs]
      · by_cases hminus : c = '-'
        · subst hminus hne
          simp [goAtoi, hdata, parseDecimalDigits, specIsDecimalIntChars, hcs]
        · subst hne
          by_cases hd : c.isDigit
          · simp [goAtoi, hdata, parseDecimalDigits, specIsDecimalIntChars,
              specDecimalValChars, hcs, hplus, hminus, hd]
            simp only [specFitsInt64, decide_eq_true_eq]
            split_ifs with h1 h2 <;> first | rfl | (exfalso; omega)
          · simp [goAtoi, hdata, parseDecimalDigits, specIsDecimalIntChars,
              hcs, hplus, hminus, hd]
    · by_cases hdig : rest.all Char.isDigit
      all_goals have hdig' := hdig
      all_goals simp only [List.all_eq_true] at hdig'
      · by_cases hplus : c = '+'
        · subst hplus
          simp [goAtoi, hdata, parseDecimalDigits, specIsDecimalIntChars,
            specDecimalValChars, hcs, hne, hdig']
          simp only [eq_true hdig', if_true, true_and]
          simp only [specFitsInt64, decide_eq_true_eq]
          split_ifs with h1 h2 <;> first | rfl | (exfalso; omega)
        · by_cases hminus : c = '-'
          · subst hminus
            simp [goAtoi, hdata, parseDecimalDigits, specIsDecimalIntChars,
              specDecimalValChars, hcs, hne, hdig']
            simp only [eq_true hdig', if_true, true_and]
            simp only [specFitsInt64, decide_eq_true_eq]
            split_ifs with h1 h2 <;> first | rfl | (exfalso; omega)
          · by_cases hd : c.isDigit
            · simp [goAtoi, hdata, parseDecimalDigits, specIsDecimalIntChars,
                specDecimalValChars, hcs, hne, hplus, hminus, hd, hdig']
              simp only [eq_true hdig', if_true, true_and]
              simp only [specFitsInt64, decide_eq_true_eq]
              split_ifs with h1 h2 <;> first | rfl | (exfalso; omega)
            · simp [goAtoi, hdata, parseDecimalDigits, specIsDecimalIntChars,
                hcs, hne, hplus, hminus, hd]
      · by_cases hplus : c = '+'
        · subst hplus
          simp [goAtoi, hdata, parseDecimalDigits, specIsDecimalIntChars,
            hcs, hne, hdig']
        · by_cases hminus : c = '-'
          · subst hminus
            simp [goAtoi, hdata, parseDecimalDigits, specIsDecimalIntChars,
              hcs, hne, hdig']
          · simp [goAtoi, hdata, parseDecimalDigits, specIsDecimalIntChars,
              hcs, hne, hplus, hminus, hdig']

/-- Claim C10, amended: if the build string has fewer than two
space-separated fields, or its second field is not a decimal integer
numeral that fits a signed 64-bit int (Go's `Atoi` also fails with
`ErrRange` on out-of-range numerals), `BuildNumber` is -1 and no error is
raised; otherwise `BuildNumber` is exactly that integer. -/
theorem getBuildNumber_spec (buildString : String) :
    getBuildNumber buildString =
      (if (stringsSplitSpace buildString).length < 2 then -1
       else
         let f := ((stringsSplitSpace buildString).getD 1 "").toList
         if specIsDecimalIntChars f && specFitsInt64 (specDecimalValChars f)
         then specDecimalValChars f else -1) := by
  by_cases hlen : (stringsSplitSpace buildString).length < 2
  · simp [getBuildNumber, hlen]
  · simp only [getBuildNumber, hlen, if_false]
    rw [goAtoi_eq_spec]
    simp only [Bool.and_eq_true]
    split_ifs <;> rfl

/-- A build string whose second field is a decimal numeral too large for
a signed 64-bit integer. -/
def overflowBuildString : String := "AoMRT_s.exe 99999999999999999999"

/-- Counterexample to claim C10 as stated: the second field of
`overflowBuildString` is a decimal integer (all digits, value 10^20 - 1),
yet `getBuildNumber` returns -1 because Go's `Atoi` fails with a range
error on it. -/
theorem getBuildNumber_overflow_counterexample :
    (stringsSplitSpace overflowBuildString).length = 2 ∧
    ((stringsSplitSpace overflowBuildString).getD 1 "").toList.all Char.isDigit = true ∧
    specDecimalValChars ((stringsSplitSpace overflowBuildString).getD 1 "").toList =
      99999999999999999999 ∧
    getBuildNumber overflowBuildString = -1 ∧
    ((-1 : Int) ≠ 99999999999999999999) := by decide

/-! ### Claim C9 -/

/-- Collecting resigning players over a list with no type-16 command
leaves the accumulator unchanged. -/
theorem resignFold_nil (cmds : List RawGameCommand)
    (h : ∀ c ∈ cmds, c.base.commandType ≠ 16) :
    ∀ acc : List Nat,
      cmds.foldl
        (fun acc c =>
          if c.base.commandType == 16 && !acc.contains c.base.playerId
          then acc ++ [c.base.playerId] else acc) acc = acc := by
  induction cmds with
  | nil => intro acc; rfl
  | cons c t ih =>
    intro acc
    have hc : (c.base.commandType == 16) = false := by
      simpa using h c (List.mem_cons_self c t)
    simp only [List.foldl, hc, Bool.false_and, if_false]
    exact ih (fun d hd => h d (List.mem_cons_of_mem c hd)) acc

/-- With no resign command in the stream, `getLosingTeams` fails. -/
theorem getLosingTeams_no_resign (cmds : List RawGameCommand)
    (profileKeys : ProfileKeys) (h : ∀ c ∈ cmds, c.base.commandType ≠ 16) :
    getLosingTeams cmds profileKeys = .error "no resign commands found" := by
  unfold getLosingTeams
  rw [resignFold_nil cmds h []]
  rfl

/-- Claim C9: if the decoded command stream contains no type-16 (resign)
command, assembling the output record fails with an error; consequently a
successfully produced record always comes from a stream containing at
least one resign command.  The theorem quantifies over the out-of-file
subcomponents (`readBuildString`, `parseXmb`) the assembler calls. -/
theorem formatRawDataToReplay_requires_resign
    (readBuildStringF : Except String String)
    (parseXmbF : String → Except String XmbNode) (slim stats : Bool)
    (profileKeys : ProfileKeys) (commandList : List RawGameCommand) :
    ((∀ c ∈ commandList, c.base.commandType ≠ 16) →
      ∃ e, formatRawDataToReplay readBuildStringF parseXmbF slim stats
        profileKeys commandList = .error e) ∧
    (∀ rec, formatRawDataToReplay readBuildStringF parseXmbF slim stats
        profileKeys commandList = .ok rec →
      ∃ c ∈ commandList, c.base.commandType = 16) := by
  have part1 : (∀ c ∈ commandList, c.base.commandType ≠ 16) →
      ∃ e, formatRawDataToReplay readBuildStringF parseXmbF slim stats
        profileKeys commandList = .error e := by
    intro hno
    have hlose := getLosingTeams_no_resign commandList profileKeys hno
    cases hbs : readBuildStringF with
    | error e => exact ⟨e, by simp [formatRawDataToReplay, hbs]⟩
    | ok bs =>
      cases hciv : parseXmbF "civs" with
      | error e => exact ⟨e, by simp [formatRawDataToReplay, hbs, hciv]⟩
      | ok civ =>
        cases htech : parseXmbF "techtree" with
        | error e => exact ⟨e, by simp [formatRawDataToReplay, hbs, hciv, htech]⟩
        | ok tech =>
          exact ⟨"no resign commands found",
            by simp [formatRawDataToReplay, hbs, hciv, htech, hlose]⟩
  refine ⟨part1, fun rec hok => ?_⟩
  by_contra hno
  push_neg at hno
  obtain ⟨e, he⟩ := part1 hno
  rw [he] at hok
  exact Except.noConfusion hok

/-- Witness for claim C9: with an empty command stream (and trivial
subcomponents) the assembler produces no record. -/
theorem formatRawDataToReplay_requires_resign_witness :
    (formatRawDataToReplay (.ok "") (fun _ => .ok default) false false
      [] []).isOk = false := by
  obtain ⟨e, he⟩ := (formatRawDataToReplay_requires_resign (.ok "")
    (fun _ => .ok default) false false [] []).1 (by simp)
  rw [he]
  rfl

/-! ### Claim C8 -/

/-- Spec-side: the number of decoded commands of the player whose
`affects_eapm` flag is set. -/
def countEapmCommands (playerNum : Nat) (commandList : List RawGameCommand) : Nat :=
  (commandList.filter fun c =>
    c.base.playerId == playerNum && c.base.affectsEAPM).length

/-- The counting loop of `getEAPM` counts exactly the filtered commands. -/
theorem getEAPM_count_aux (playerNum : Nat) :
    ∀ (l : List RawGameCommand) (a : Nat),
      l.foldl
        (fun actions command =>
          if command.base.playerId == playerNum && command.base.affectsEAPM
          then actions + 1 else actions) a =
        a + (l.filter fun c =>
          c.base.playerId == playerNum && c.base.affectsEAPM).length := by
  intro l
  induction l with
  | nil => intro a; simp
  | cons c t ih =>
    intro a
    by_cases hc : (c.base.playerId == playerNum && c.base.affectsEAPM) = true
    · simp only [List.foldl, List.filter, hc, if_true]
      rw [ih]
      simp
      omega
    · have hc2 : (c.base.playerId == playerNum && c.base.affectsEAPM) = false :=
        Bool.eq_false_iff.mpr hc
      simp only [List.foldl, List.filter, hc2, if_false]
      rw [ih]
      simp

/-- `getEAPM` is the filtered count over the game length in minutes. -/
theorem getEAPM_eq_count (playerNum : Nat) (commandList : List RawGameCommand)
    (gameLengthSecs : ℚ) :
    getEAPM playerNum commandList gameLengthSecs =
      (countEapmCommands playerNum commandList : ℚ) / (gameLengthSecs / 60) := by
  unfold getEAPM countEapmCommands
  rw [getEAPM_count_aux]
  simp

/-- Every player produced by `getPlayers` carries the EAPM computed by
`getEAPM` at the player's own number. -/
theorem getPlayers_eapm {p : ReplayPlayer} {profileKeys : ProfileKeys}
    {majorGodMap : List (Int × String)} {losingTeams : List Int}
    {gameLengthSecs : ℚ} {commandList : List RawGameCommand}
    {techTreeRootNode : XmbNode}
    (hp : p ∈ getPlayers profileKeys majorGodMap losingTeams gameLengthSecs
      commandList techTreeRootNode) :
    p.EAPM = getEAPM p.PlayerNum commandList gameLengthSecs := by
  unfold getPlayers at hp
  obtain ⟨n, hn, heq⟩ := List.mem_filterMap.1 hp
  simp only at heq
  split at heq
  · split at heq
    · exact Option.noConfusion heq
    · injection heq with heq
      subst heq
      rfl
  · exact Option.noConfusion heq

/-- The tech-flag pass only touches the `Titan` and `Wonder` flags. -/
theorem techFold_preserves (techs : List String) :
    ∀ player : ReplayPlayer,
      ((techs.foldl
        (fun player tech =>
          if tech = "TitanGate" then { player with Titan := true }
          else if tech = "Wonder" then { player with Wonder := true }
          else player) player).EAPM = player.EAPM ∧
       (techs.foldl
        (fun player tech =>
          if tech = "TitanGate" then { player with Titan := true }
          else if tech = "Wonder" then { player with Wonder := true }
          else player) player).PlayerNum = player.PlayerNum) := by
  induction techs with
  | nil => intro player; exact ⟨rfl, rfl⟩
  | cons t ts ih =>
    intro player
    simp only [List.foldl]
    by_cases h1 : t = "TitanGate"
    · simp only [h1, if_true]
      exact ih _
    · by_cases h2 : t = "Wonder"
      · simp only [h1, h2, if_false, if_true]
        exact ih _
      · simp only [h1, h2, if_false]
        exact ih _

/-- `addTechsToPlayers` preserves each player's EAPM and number. -/
theorem addTechs_preserves {p : ReplayPlayer} {players : List ReplayPlayer}
    {gameCommands : List ReplayGameCommand}
    (hp : p ∈ addTechsToPlayers players gameCommands) :
    ∃ q ∈ players, p.EAPM = q.EAPM ∧ p.PlayerNum = q.PlayerNum := by
  unfold addTechsToPlayers at hp
  obtain ⟨q, hq, heq⟩ := List.mem_map.1 hp
  refine ⟨q, hq, ?_, ?_⟩
  · rw [← heq]
    exact (techFold_preserves _ q).1
  · rw [← heq]
    exact (techFold_preserves _ q).2

/-- Claim C8: for every player in a successfully assembled record, the
reported EAPM equals the count of decoded commands with that player's id
and `affects_eapm` set, divided by `game_length_secs / 60`, where
`game_length_secs` is the game time of the last command in the stream. -/
theorem formatRawDataToReplay_eapm (readBuildStringF : Except String String)
    (parseXmbF : String → Except String XmbNode) (slim stats : Bool)
    (profileKeys : ProfileKeys) (commandList : List RawGameCommand)
    (rec : ReplayFormatted)
    (h : formatRawDataToReplay readBuildStringF parseXmbF slim stats
      profileKeys commandList = .ok rec) :
    ∀ p ∈ rec.Players,
      p.EAPM = (countEapmCommands p.PlayerNum commandList : ℚ) /
        ((commandList.getLastD default).base.gameTimeSecs / 60) := by
  unfold formatRawDataToReplay at h
  repeat' split at h
  all_goals try exact Except.noConfusion h
  all_goals simp only [Except.ok.injEq] at h
  all_goals subst h
  all_goals intro p hp
  all_goals obtain ⟨q, hq, hEAPM, hNum⟩ := addTechs_preserves hp
  all_goals rw [hEAPM, hNum, getPlayers_eapm hq, getEAPM_eq_count]

/-- The profile keys of the witness replay: one present player. -/
def c8keys : ProfileKeys :=
  [("gameplayer1name", ⟨"P", 0, false⟩),
   ("gameplayer1rlinkid", ⟨"7", 0, false⟩),
   ("gameplayer1teamid", ⟨"", 2, false⟩)]

/-- The command stream of the witness replay: one resign at 3 seconds. -/
def c8cmds : List RawGameCommand :=
  [⟨{ commandType := 16, playerId := 1, offset := 0, offsetEnd := 21,
      byteLength := 21, gameTimeSecs := 3, affectsEAPM := false,
      sourceUnits := [], sourceVectors := [], preArgumentBytes := [] }, .resign⟩]

/-- The player assembled from the witness replay. -/
def c8player : ReplayPlayer :=
  { PlayerNum := 1, TeamId := 2, Name := "P", ProfileId := 7, Color := 0,
    RandomGod := false, God := "Nature", Winner := false, EAPM := 0,
    MinorGods := ("", "", ""), Titan := false, Wonder := false, CivList := "" }

/-- The record assembled from the witness replay (slim mode, no stats). -/
def c8rec : ReplayFormatted :=
  { MapName := "", BuildNumber := -1, BuildString := "b",
    ParserVersion := VERSION, GameLengthSecs := 3, GameSeed := 0,
    WinningTeam := 0, GameOptions := getGameOptions c8keys,
    Players := [c8player], Stats := none, GameCommands := none }

/-- Witness for claim C8 at the concrete witness replay. -/
theorem formatRawDataToReplay_eapm_witness :
    formatRawDataToReplay (.ok "b") (fun _ => .ok default) true false
      c8keys c8cmds = .ok c8rec ∧
    c8player.EAPM = (countEapmCommands c8player.PlayerNum c8cmds : ℚ) /
      ((c8cmds.getLastD default).base.gameTimeSecs / 60) := by
  have hp : formatRawDataToReplay (.ok "b") (fun _ => .ok default) true false
      c8keys c8cmds = .ok c8rec := by decide
  exact ⟨hp, formatRawDataToReplay_eapm (.ok "b") (fun _ => .ok default)
    true false c8keys c8cmds c8rec hp c8player (by decide)⟩

end Restoration
